import Mathlib

/-!
Verification of the change-impact test-selection engine
(`ai_test_runner_3.py`, `ai_test_runner_full.py`, `ai_test_selector_2.py`,
`ai_test_selector_4.py`, `ai_test_selector_5.py`).

The Python functions are shallowly embedded as executable Lean definitions:
files are lists of lines, diffs are lists of lines, the external HTTP
suggestion service is a value of an explicit response type, subprocess test
executions are lists of attempt outcomes, and the order in which CPython
enumerates a `set` of strings (which depends on the per-process string hash
seed) is an explicit `setOrder` parameter.
-/

namespace TestSelect

/-! ## Python character classes and string helpers -/

/-- Python `\s` / `str.strip()` whitespace (ASCII part, which is all that
occurs in the modelled inputs). -/
def pyIsSpace (c : Char) : Bool :=
  c = ' ' || c = '\t' || c = '\n' || c = '\r' || c = '\x0b' || c = '\x0c'

/-- First character of a Python identifier, regex class `[a-zA-Z_]`. -/
def isIdentStart (c : Char) : Bool := c.isAlpha || c = '_'

/-- Python identifier / regex word character, class `[a-zA-Z0-9_]` (`\w`). -/
def isWordChar (c : Char) : Bool := c.isAlpha || c.isDigit || c = '_'

/-- Character of the locator-constant token, regex class `[A-Z_0-9]`. -/
def isLocTokenChar (c : Char) : Bool := ('A' ≤ c && c ≤ 'Z') || c.isDigit || c = '_'

/-- Python `str.strip()` on a character list. -/
def pyStripList (cs : List Char) : List Char :=
  ((cs.dropWhile pyIsSpace).reverse.dropWhile pyIsSpace).reverse

/-- Python `str.strip()`. -/
def pyStrip (s : String) : String := ⟨pyStripList s.data⟩

/-- Python `str.strip(c)` for a single character `c`. -/
def stripCharList (t : Char) (cs : List Char) : List Char :=
  ((cs.dropWhile (· = t)).reverse.dropWhile (· = t)).reverse

/-- Python `str.strip(backtick)` as used by `parse_ai_selected_tests`. -/
def pyStripBackticks (s : String) : String := ⟨stripCharList '\x60' s.data⟩

/-- Python `str.splitlines()` on a character list (handles LF, CR, CRLF). -/
def pySplitlinesAux (acc : List Char) : List Char → List (List Char)
  | [] => if acc.isEmpty then [] else [acc.reverse]
  | '\r' :: '\n' :: rest => acc.reverse :: pySplitlinesAux [] rest
  | '\r' :: rest => acc.reverse :: pySplitlinesAux [] rest
  | '\n' :: rest => acc.reverse :: pySplitlinesAux [] rest
  | c :: rest => pySplitlinesAux (c :: acc) rest

/-- Python `str.splitlines()`. -/
def pySplitlines (s : String) : List String :=
  (pySplitlinesAux [] s.data).map fun cs => ⟨cs⟩

/-- Python `str.startswith`. -/
def pyStartsWith (s pre : String) : Bool := pre.data.isPrefixOf s.data

/-- Python `str.endswith`. -/
def pyEndsWith (s suf : String) : Bool := suf.data.isSuffixOf s.data

/-- Python substring test `needle in hay` on character lists. -/
def hasSubstrList (needle : List Char) : List Char → Bool
  | [] => needle.isEmpty
  | c :: rest => needle.isPrefixOf (c :: rest) || hasSubstrList needle rest

/-- Python substring test `needle in hay`. -/
def containsSub (hay needle : String) : Bool := hasSubstrList needle.data hay.data

/-! ## The regular expressions of the selector, as character-list matchers -/

/-- Matches `def\s+([a-zA-Z_][a-zA-Z0-9_]*)\s*\(` at the head of the list and
returns the captured name.  Shared tail of the two `def`-line regexes. -/
def defNameAfter : List Char → Option String
  | 'd' :: 'e' :: 'f' :: c :: rest =>
    if pyIsSpace c then
      match rest.dropWhile pyIsSpace with
      | c2 :: rest2 =>
        if isIdentStart c2 then
          let tl := rest2.takeWhile isWordChar
          match (rest2.drop tl.length).dropWhile pyIsSpace with
          | '(' :: _ => some ⟨c2 :: tl⟩
          | _ => none
        else none
      | [] => none
    else none
  | _ => none

/-- `re.match(r'^[\+\s-]*def\s+([a-zA-Z_][a-zA-Z0-9_]*)\s*\(', line)` —
the definition-line pattern used on diff text by `get_changed_methods`. -/
def diffDefName (line : String) : Option String :=
  defNameAfter (line.data.dropWhile fun c => c = '+' || c = '-' || pyIsSpace c)

/-- `re.match(r'^\s*def\s+([a-zA-Z_][a-zA-Z0-9_]*)\s*\(', line)` —
the definition-line pattern used on source text by `map_locators_to_methods`. -/
def srcDefName (line : String) : Option String :=
  defNameAfter (line.data.dropWhile pyIsSpace)

/-- `re.match(r'^[\+\-]\s*([A-Z_0-9]+_LOCATOR)\s*=', line)` —
the locator-assignment pattern of `get_changed_locators`. -/
def locatorLineName (line : String) : Option String :=
  match line.data with
  | c :: rest =>
    if c = '+' || c = '-' then
      let rest1 := rest.dropWhile pyIsSpace
      let run := rest1.takeWhile isLocTokenChar
      let after := (rest1.drop run.length).dropWhile pyIsSpace
      if "_LOCATOR".data.isSuffixOf run && 8 < run.length &&
          (match after with | '=' :: _ => true | _ => false) then
        some ⟨run⟩
      else none
    else none
  | [] => none

/-- `re.search(rf'\b(m)\s*\(', content)` succeeding at the head of `s`:
`m` is a prefix and is followed by `\s*` and `(`.  (The companion pattern
`\.\s*(m)\s*\(` of `find_tests_using_methods` matches only where this one
already does, since `.` and whitespace are word boundaries.) -/
def matchNameParen (m : List Char) (s : List Char) : Bool :=
  m.isPrefixOf s &&
    (match (s.drop m.length).dropWhile pyIsSpace with
     | '(' :: _ => true
     | _ => false)

/-- A `\b` word boundary holds before an identifier character when the
preceding character (if any) is not a word character. -/
def boundaryOk : Option Char → Bool
  | none => true
  | some c => !isWordChar c

/-- Scan for `\b(m)\s*\(` anywhere in the text, tracking the previous
character for the word boundary. -/
def callHitAux (m : List Char) (prev : Option Char) : List Char → Bool
  | [] => false
  | c :: rest => (boundaryOk prev && matchNameParen m (c :: rest)) || callHitAux m (some c) rest

/-- `re.search(rf'\b(method)\s*\(', content)` of `find_tests_using_methods`. -/
def callHit (method content : String) : Bool := callHitAux method.data none content.data

/-- `m` at the head of `s` followed by a closing word boundary. -/
def matchNameBounded (m : List Char) (s : List Char) : Bool :=
  m.isPrefixOf s &&
    (match s.drop m.length with
     | [] => true
     | c :: _ => !isWordChar c)

/-- Scan for `\b(m)\b` anywhere in the text. -/
def wordHitAux (m : List Char) (prev : Option Char) : List Char → Bool
  | [] => false
  | c :: rest => (boundaryOk prev && matchNameBounded m (c :: rest)) || wordHitAux m (some c) rest

/-- `re.search(rf'\b(name)\b', test_code)` of `ai_test_selector_2.py` step 4. -/
def wordHit (name content : String) : Bool := wordHitAux name.data none content.data

/-! ## Symbol-delta extraction (`get_changed_methods`, `get_changed_locators`,
`map_locators_to_methods`, `find_tests_using_methods`) -/

/-- Python `set.add` on the insertion-ordered list model of a set. -/
def listInsert (acc : List String) (x : String) : List String :=
  if x ∈ acc then acc else acc ++ [x]

/-- A diff line that marks the current symbol as changed.  In
`ai_test_runner_3.py` (and selectors 4/5):
`line.startswith(('+', '-')) and not line.startswith(('+++', '---'))`. -/
def isMarkR3 (l : String) : Bool :=
  (pyStartsWith l "+" || pyStartsWith l "-") &&
    !(pyStartsWith l "+++") && !(pyStartsWith l "---")

/-- The same mark test in `ai_test_runner_full.py`, which does not exclude
the `+++`/`---` file-header lines: `line.startswith(('+', '-'))`. -/
def isMarkFull (l : String) : Bool := pyStartsWith l "+" || pyStartsWith l "-"

/-- `if line and not line.startswith((' ', '+', '-'))` — the reset rule of
`get_changed_methods`. -/
def isResetLine (l : String) : Bool :=
  !l.isEmpty && !(pyStartsWith l " ") && !(pyStartsWith l "+") && !(pyStartsWith l "-")

/-- The per-line state machine of `get_changed_methods`: a definition line
sets `current_method` (and is itself skipped), a mark line attributes the
current method, a reset line clears it. -/
def gcmAux (mark : String → Bool) (cur : Option String) (acc : List String) :
    List String → List String
  | [] => acc
  | l :: rest =>
    match diffDefName l with
    | some m => gcmAux mark (some m) acc rest
    | none =>
      gcmAux mark (if isResetLine l then none else cur)
        (match cur with
         | some m => if mark l then listInsert acc m else acc
         | none => acc) rest

/-- `get_changed_methods` of `ai_test_runner_3.py` applied to one file's diff
text (as a list of lines). -/
def extractChangedMethodsR3 (diff : List String) : List String :=
  gcmAux isMarkR3 none [] diff

/-- `get_changed_methods` of `ai_test_runner_full.py` applied to one file's
diff text. -/
def extractChangedMethodsFull (diff : List String) : List String :=
  gcmAux isMarkFull none [] diff

/-- `get_changed_locators` applied to one file's diff text. -/
def extractChangedLocators (diff : List String) : List String :=
  diff.foldl (fun acc l =>
    match locatorLineName l with
    | some n => listInsert acc n
    | none => acc) []

/-- The per-line loop of `map_locators_to_methods`: a `def` line sets
`current_method` and is skipped; any other line containing one of the changed
locators attributes the current method.  Note that `current_method` is never
reset. -/
def mlmAux (locs : List String) (cur : Option String) (acc : List String) :
    List String → List String
  | [] => acc
  | l :: rest =>
    match srcDefName l with
    | some m => mlmAux locs (some m) acc rest
    | none =>
      match cur with
      | some m =>
        if locs.any (fun loc => containsSub l loc) then mlmAux locs cur (listInsert acc m) rest
        else mlmAux locs cur acc rest
      | none => mlmAux locs cur acc rest

/-- `map_locators_to_methods(file_path, changed_locators)` on the file's
lines. -/
def mapLocatorsToMethods (fileLines : List String) (locs : List String) : List String :=
  mlmAux locs none [] fileLines

/-- Python `"\n".join` inverse: the content of a file given as lines. -/
def joinLines (ls : List String) : String := String.intercalate "\n" ls

/-- `find_tests_using_methods(test_files, changed_methods)`: a test file
matches when some changed method occurs as `\b(m)\s*\(` in its content;
unreadable files are skipped.  `files` maps a path to its lines on disk. -/
def findTestsUsingMethods (repoTests : List String)
    (files : List (String × List String)) (methods : List String) : List String :=
  repoTests.filter fun p =>
    match files.lookup p with
    | none => false
    | some ls => methods.any fun m => callHit m (joinLines ls)

/-! ## The suggestion-oracle boundary -/

/-- Outcome of the single HTTP POST to the suggestion service, as observed by
the caller: a raised timeout, a raised connection error, or a response with a
status code, a flag saying whether `response.json()` succeeds (malformed
bodies make it raise), and the value of the `response` field of the JSON
(`""` when the field is absent). -/
inductive HttpResult where
  | timeout
  | connError
  | response (status : Nat) (jsonOk : Bool) (responseField : String)

/-- `ask_ollama_for_tests` of `ai_test_runner_3.py`: `Timeout`,
`ConnectionError` and any other exception (malformed JSON) are caught and
yield `[]`; a non-200 status yields `[]`; otherwise the response text is
split into stripped non-blank lines, capped at 5. -/
def askOllamaForTests : HttpResult → List String
  | .timeout => []
  | .connError => []
  | .response st ok body =>
    if st ≠ 200 then []
    else if !ok then []
    else (((pySplitlines body).map pyStrip).filter (fun l => !l.isEmpty)).take 5

/-- `ask_ollama_for_tests` of `ai_test_selector_5.py` (identical in
`ai_test_selector_4.py`): the `requests.post` call sits outside the
`try` block, so an error raised by the transport itself (connection refused,
or any transport failure — no request timeout is configured) propagates to
the caller (`Except.error`).  Only the parsing of the received body is
guarded: a malformed body yields `[]`.  The status code is never checked. -/
def askOllamaSel5 : HttpResult → Except Unit (List String)
  | .timeout => .error ()
  | .connError => .error ()
  | .response _ ok body =>
    if !ok then .ok []
    else .ok (((pySplitlines body).map pyStrip).filter (fun l => !l.isEmpty))

/-- `ask_ai_for_tests` of `ai_test_runner_full.py`: everything is inside the
`try`, `raise_for_status()` turns 4xx/5xx into the caught exception, malformed
JSON is caught; all failures yield `""`. -/
def askAiForTests : HttpResult → String
  | .timeout => ""
  | .connError => ""
  | .response st ok body =>
    if 400 ≤ st then ""
    else if !ok then ""
    else body

/-- CPython's `list(set(xs))` for a set of strings: the distinct elements of
`xs` enumerated in the hash-determined iteration order.  `order` is that
per-process enumeration order (a list of the distinct elements of `xs` when
the model is used faithfully); the construction itself never depends on the
textual order of `xs`. -/
def pySetList (order xs : List String) : List String :=
  order.filter fun o => decide (o ∈ xs)

/-- `map_ai_files_to_repo(ai_files, repo_tests)` before the final
`list(set(...))`: exact corpus members are kept, otherwise
`difflib.get_close_matches(ai_file, repo_tests, n=1, cutoff=0.5)` supplies at
most one candidate.  `closeMatch` is that library call, modelled at the
stdlib boundary (it only ever returns elements of its second argument). -/
def mapAiFilesToRepoRaw (closeMatch : String → List String → Option String)
    (aiFiles repoTests : List String) : List String :=
  aiFiles.foldl (fun acc f =>
    if f ∈ repoTests then acc ++ [f]
    else
      match closeMatch f repoTests with
      | some m => acc ++ [m]
      | none => acc) []

/-- `map_ai_files_to_repo` including its final `list(set(mapped_files))`. -/
def mapAiFilesToRepo (closeMatch : String → List String → Option String)
    (order aiFiles repoTests : List String) : List String :=
  pySetList order (mapAiFilesToRepoRaw closeMatch aiFiles repoTests)

/-- `parse_ai_selected_tests(output, repo_tests)` of `ai_test_runner_full.py`:
lines are stripped of whitespace and backticks and kept only on exact corpus
membership. -/
def parseAiSelectedTests (output : String) (repoTests : List String) : List String :=
  (pySplitlines output).foldl (fun acc l =>
    let line := pyStripBackticks (pyStrip l)
    if line ∈ repoTests then acc ++ [line] else acc) []

/-! ## Test execution with retry (`run_test_with_monitoring`) and history
(`update_test_metrics`) -/

/-- What one `subprocess.run(["pytest", ...])` invocation does: it completes
with a return code, exceeds its timeout, or raises some other exception. -/
inductive AttemptOutcome where
  | completed (returncode : Int)
  | timedOut
  | crashed
deriving DecidableEq

/-- The retry loop of `run_test_with_monitoring`, over the per-attempt
outcomes (`RETRY_ATTEMPTS = 2`, so the claims instantiate two-element lists):
a zero return code succeeds immediately; any failure on a non-final attempt
retries; the final attempt's failure is returned. -/
def runAttempts : List AttemptOutcome → Bool
  | [] => false
  | [.completed rc] => rc == 0
  | [_] => false
  | .completed rc :: o :: rest => if rc == 0 then true else runAttempts (o :: rest)
  | _ :: o :: rest => runAttempts (o :: rest)

/-- An attempt that does not pass: nonzero exit, timeout, or crash. -/
def isFailure : AttemptOutcome → Bool
  | .completed rc => rc != 0
  | _ => true

/-- The per-test record of `.test_execution_history.json` (execution times
modelled as naturals; their values never influence the claims). -/
structure TestData where
  execution_times : List Nat
  success_rate : List Bool
  recent_failures : Nat
  total_runs : Nat
deriving DecidableEq

/-- The record created on a test's first observed run. -/
def emptyTestData : TestData := ⟨[], [], 0, 0⟩

/-- Python `xs[-n:]`. -/
def lastN (n : Nat) (xs : List α) : List α := xs.drop (xs.length - n)

/-- Update-or-append on the association-list model of the history dict. -/
def assocSet (k : String) (v : TestData) : List (String × TestData) → List (String × TestData)
  | [] => [(k, v)]
  | (k1, v1) :: rest => if k = k1 then (k, v) :: rest else (k1, v1) :: assocSet k v rest

/-- `update_test_metrics(test_file, execution_time, success, history)`:
append the new observation, truncate both ring buffers to the last 20
entries, and recount the failures among the last 5 runs. -/
def updateTestMetrics (testFile : String) (time : Nat) (success : Bool)
    (history : List (String × TestData)) : List (String × TestData) :=
  let d0 := (history.lookup testFile).getD emptyTestData
  let d1 : TestData :=
    ⟨d0.execution_times ++ [time], d0.success_rate ++ [success],
     d0.recent_failures, d0.total_runs + 1⟩
  let d2 : TestData :=
    if 20 < d1.execution_times.length then
      ⟨lastN 20 d1.execution_times, lastN 20 d1.success_rate,
       d1.recent_failures, d1.total_runs⟩
    else d1
  let d3 : TestData :=
    ⟨d2.execution_times, d2.success_rate,
     (lastN 5 d2.success_rate).countP (fun b => !b), d2.total_runs⟩
  assocSet testFile d3 history

/-! ## Pipeline components shared by the `__main__` blocks

The environment of one run: the changed files reported by git, the per-file
diff text, the on-disk file contents at scan time, the enumerated test
corpus, the oracle's HTTP outcome, the per-process `set` enumeration order,
and the attempt outcomes of each test subprocess. -/

/-- The `changed_methods` accumulation: per changed `.py` file with a
non-empty diff, run the diff state machine and union the results. -/
def changedMethodsOf (mark : String → Bool) (changedFiles : List String)
    (diffs : List (String × List String)) : List String :=
  changedFiles.foldl (fun acc f =>
    if pyEndsWith f ".py" then
      match diffs.lookup f with
      | some d => if d.isEmpty then acc else (gcmAux mark none [] d).foldl listInsert acc
      | none => acc
    else acc) []

/-- The `changed_locators` accumulation over the changed `.py` files. -/
def changedLocatorsOf (changedFiles : List String)
    (diffs : List (String × List String)) : List String :=
  changedFiles.foldl (fun acc f =>
    if pyEndsWith f ".py" then
      match diffs.lookup f with
      | some d => if d.isEmpty then acc else (extractChangedLocators d).foldl listInsert acc
      | none => acc
    else acc) []

/-- The locator-expansion loop of the `__main__` blocks: when locators
changed, every changed `.py` file readable on disk contributes
`map_locators_to_methods(file, changed_locators)` to `changed_methods`. -/
def locatorExpandedMethods (mark : String → Bool) (changedFiles : List String)
    (diffs files : List (String × List String)) : List String :=
  let base := changedMethodsOf mark changedFiles diffs
  let locs := changedLocatorsOf changedFiles diffs
  changedFiles.foldl (fun acc f =>
    if !locs.isEmpty && pyEndsWith f ".py" then
      match files.lookup f with
      | some ls => (mapLocatorsToMethods ls locs).foldl listInsert acc
      | none => acc
    else acc) base

/-! ## `ai_test_runner_3.py` `__main__` -/

/-- One run's inputs for `ai_test_runner_3.py`. -/
structure Env3 where
  changedFiles : List String
  diffs : List (String × List String)
  files : List (String × List String)
  repoTests : List String
  oracle : HttpResult
  setOrder : List String
  attemptsOf : String → List AttemptOutcome

/-- Step 1: `[f for f in changed_files if f in repo_tests]`. -/
def env3Direct (e : Env3) : List String :=
  e.changedFiles.filter fun f => decide (f ∈ e.repoTests)

/-- The `changed_methods` set after locator expansion. -/
def env3Methods (e : Env3) : List String :=
  locatorExpandedMethods isMarkR3 e.changedFiles e.diffs e.files

/-- Step 2, guarded by `if changed_methods:`. -/
def env3Matched (e : Env3) : List String :=
  if (env3Methods e).isEmpty then []
  else findTestsUsingMethods e.repoTests e.files (env3Methods e)

/-- `tests_to_run` after steps 1 and 2 (`extend` keeps duplicates). -/
def env3Merged (e : Env3) : List String := env3Direct e ++ env3Matched e

/-- The step-3 trigger: `if not tests_to_run or len(tests_to_run) > 10`. -/
def env3OracleUsed (e : Env3) : Bool :=
  (env3Merged e).isEmpty || 10 < (env3Merged e).length

/-- `tests_to_run` after step 3: when triggered and the AI suggested
anything, either replace the over-large set or extend the empty one. -/
def env3AfterAi (closeMatch : String → List String → Option String) (e : Env3) :
    List String :=
  let merged := env3Merged e
  if merged.isEmpty || 10 < merged.length then
    let ai := askOllamaForTests e.oracle
    if ai.isEmpty then merged
    else
      let mapped := mapAiFilesToRepo closeMatch e.setOrder ai e.repoTests
      if 10 < merged.length then mapped else merged ++ mapped
  else merged

/-- The final reconciliation step `list(set(tests_to_run))[:8]`
(`ai_test_runner_3.py` line 474): deduplicate in the per-process set
enumeration order and cap at 8. -/
def dedupAndCap (order xs : List String) : List String :=
  (pySetList order xs).take 8

/-- The final selection: `list(set(tests_to_run))[:8]`. -/
def env3Selection (closeMatch : String → List String → Option String) (e : Env3) :
    List String :=
  dedupAndCap e.setOrder (env3AfterAi closeMatch e)

/-- `run_tests_intelligently` reports success iff every selected test's
retry loop settles passed (ordering and parallelism do not affect the
conjunction). -/
def runAllTests (e : Env3) (sel : List String) : Bool :=
  sel.all fun t => runAttempts (e.attemptsOf t)

/-- Observable outcome of one `__main__` run. -/
structure RunOut where
  selection : List String
  exitCode : Nat
  oracleContacted : Bool
deriving DecidableEq

/-- The `__main__` block of `ai_test_runner_3.py`.  With no changed files it
runs the first corpus test as a smoke test and exits with that result;
otherwise it runs the three selection steps, dedups and caps, executes, and
exits 0 iff everything passed (or nothing was selected). -/
def runner3Run (closeMatch : String → List String → Option String) (e : Env3) :
    RunOut :=
  if e.changedFiles.isEmpty then
    match e.repoTests with
    | [] => ⟨[], 0, false⟩
    | t :: _ => ⟨[t], if runAttempts (e.attemptsOf t) then 0 else 1, false⟩
  else
    let final := env3Selection closeMatch e
    if final.isEmpty then ⟨final, 0, env3OracleUsed e⟩
    else ⟨final, if runAllTests e final then 0 else 1, env3OracleUsed e⟩

/-! ## `ai_test_runner_full.py` `__main__` -/

/-- One run's inputs for `ai_test_runner_full.py` (its `__main__` never
consults execution results for the exit code). -/
structure EnvF where
  changedFiles : List String
  diffs : List (String × List String)
  files : List (String × List String)
  repoTests : List String
  oracle : HttpResult
  setOrder : List String

/-- Outcome of a `ai_test_runner_full.py` run, keeping the static match for
inspection. -/
structure RunOutF where
  selection : List String
  exitCode : Nat
  oracleContacted : Bool
  staticMatched : List String
deriving DecidableEq

/-- `changed_methods` after locator expansion in `ai_test_runner_full.py`
(whose mark rule does not exclude `+++`/`---`). -/
def envFMethods (e : EnvF) : List String :=
  locatorExpandedMethods isMarkFull e.changedFiles e.diffs e.files

/-- `find_tests_using_methods(repo_tests, changed_methods)`, called
unconditionally. -/
def envFMatched (e : EnvF) : List String :=
  findTestsUsingMethods e.repoTests e.files (envFMethods e)

/-- The `__main__` block of `ai_test_runner_full.py`: early zero-exit on an
empty change set or corpus; otherwise the AI is contacted unconditionally and
its validated output is unioned with the static match; the script always
exits 0. -/
def runnerFullRun (e : EnvF) : RunOutF :=
  if e.changedFiles.isEmpty then ⟨[], 0, false, []⟩
  else if e.repoTests.isEmpty then ⟨[], 0, false, []⟩
  else
    let matched := envFMatched e
    let ai := parseAiSelectedTests (askAiForTests e.oracle) e.repoTests
    ⟨pySetList e.setOrder (matched ++ ai), 0, true, matched⟩

/-! ## `ai_test_selector_5.py` and `ai_test_selector_4.py` `__main__` -/

/-- Which stage produced the executed set. -/
inductive Provenance where
  | direct
  | staticMatch
  | aiSuggested
deriving DecidableEq

/-- One run's inputs for the staged selectors (the mains take no execution
feedback: they `exit(0)` right after `os.system`). -/
structure Env5 where
  changedFiles : List String
  diffs : List (String × List String)
  files : List (String × List String)
  repoTests : List String
  oracle : HttpResult
  setOrder : List String
  closeMatch : String → List String → Option String

/-- Step 1 of the staged selectors. -/
def env5Direct (e : Env5) : List String :=
  e.changedFiles.filter fun f => decide (f ∈ e.repoTests)

/-- `changed_methods` after locator expansion (the selector-5 extraction code
is identical to runner 3's). -/
def env5Methods (e : Env5) : List String :=
  locatorExpandedMethods isMarkR3 e.changedFiles e.diffs e.files

/-- Step 2: `find_tests_using_methods(repo_tests, changed_methods)`
(unconditional in the staged selectors). -/
def env5Matched (e : Env5) : List String :=
  findTestsUsingMethods e.repoTests e.files (env5Methods e)

/-- Outcome of a staged-selector run. -/
structure RunOut5 where
  executed : List String
  provenance : Option Provenance
  oracleContacted : Bool
  exitCode : Nat

/-- The `__main__` block of `ai_test_selector_5.py`: Step 1 executes the
directly changed test files and exits 0; else Step 2 executes the
method-matched tests and exits 0; else Step 3 asks the oracle — whose raised
transport error is uncaught (exit 1) — and executes the mapped suggestions. -/
def sel5Run (e : Env5) : RunOut5 :=
  let direct := env5Direct e
  if !direct.isEmpty then ⟨direct, some .direct, false, 0⟩
  else
    let matched := env5Matched e
    if !matched.isEmpty then ⟨matched, some .staticMatch, false, 0⟩
    else
      match askOllamaSel5 e.oracle with
      | .error _ => ⟨[], none, true, 1⟩
      | .ok ai =>
        let mapped := mapAiFilesToRepo e.closeMatch e.setOrder ai e.repoTests
        ⟨mapped, if mapped.isEmpty then none else some .aiSuggested, true, 0⟩

/-- Outcome of an `ai_test_selector_4.py` run; the unconditional
feature-mapping LLM call (`map_changes_to_features_ai`, fully guarded by its
own `try`) is recorded separately from the suggestion oracle. -/
structure RunOut4 where
  executed : List String
  provenance : Option Provenance
  suggestionOracleContacted : Bool
  featureAiContacted : Bool
  exitCode : Nat

/-- Step 1 of `ai_test_selector_4.py`:
`[f for f in changed_files if f in repo_tests]`. -/
def env4Direct (e : Env5) : List String :=
  e.changedFiles.filter fun f => decide (f ∈ e.repoTests)

/-- `changed_methods` in `ai_test_selector_4.py`: its `get_changed_methods`
diff loop is that of runner 3 / selector 5, but the file defines **no**
locator helpers, so no locator expansion ever widens the set. -/
def env4Methods (e : Env5) : List String :=
  changedMethodsOf isMarkR3 e.changedFiles e.diffs

/-- Step 2 of `ai_test_selector_4.py`:
`find_tests_using_methods(repo_tests, changed_methods)` on the unexpanded
method set. -/
def env4Matched (e : Env5) : List String :=
  findTestsUsingMethods e.repoTests e.files (env4Methods e)

/-- The `__main__` block of `ai_test_selector_4.py`: the feature-mapping AI
report runs first (never feeding the executed set), then the staged steps
1–3 — like selector 5's, except that its `changed_methods` has no locator
expansion.  Its `ask_ollama_for_tests` has selector 5's shape (the post
outside the `try`), so a transport error likewise propagates (exit 1). -/
def sel4Run (e : Env5) : RunOut4 :=
  let direct := env4Direct e
  if !direct.isEmpty then ⟨direct, some .direct, false, true, 0⟩
  else
    let matched := env4Matched e
    if !matched.isEmpty then ⟨matched, some .staticMatch, false, true, 0⟩
    else
      match askOllamaSel5 e.oracle with
      | .error _ => ⟨[], none, true, true, 1⟩
      | .ok ai =>
        let mapped := mapAiFilesToRepo e.closeMatch e.setOrder ai e.repoTests
        ⟨mapped, if mapped.isEmpty then none else some .aiSuggested, true, true, 0⟩

/-! ## `ai_test_selector_2.py` steps 4–6 -/

/-- Step 4: keyword matching of changed names over the test files with
`\b(name)\b`. -/
def sel2KeywordMatch (tests : List (String × List String)) (names : List String) :
    List String :=
  tests.foldl (fun acc pc =>
    if names.any (fun n => wordHit n (joinLines pc.2)) then acc ++ [pc.1] else acc) []

/-- The AI-fallback validation of `ai_test_selector_2.py` (lines 99–107):
a suggested line is kept iff it ends in `.py` and
`(project_root / line).resolve()` names an existing file — existence under
the project root, not membership in the test corpus.  `existingPaths` is the
set of root-relative paths that exist on disk (resolution modelled for
in-root relative paths, which the counterexample uses). -/
def sel2AiValidate (existingPaths : List String) (output : String) : List String :=
  (pySplitlines output).foldl (fun acc l =>
    let line := pyStrip l
    if pyEndsWith line ".py" && decide (line ∈ existingPaths) then acc ++ [line]
    else acc) []

/-- Steps 4–6 of `ai_test_selector_2.py`: keyword matches, else the validated
AI suggestions (`none` models the skipped AI step after `TimeoutExpired`),
then `list(set(...))` before `pytest`. -/
def sel2Run (tests : List (String × List String)) (names : List String)
    (existingPaths : List String) (aiOutput : Option String) (order : List String) :
    List String :=
  let kw := sel2KeywordMatch tests names
  let sel := if kw.isEmpty then
      match aiOutput with
      | some out => sel2AiValidate existingPaths out
      | none => []
    else kw
  pySetList order sel

/-! ## General lemmas about the embedded operations -/

theorem mem_listInsert_self (acc : List String) (x : String) : x ∈ listInsert acc x := by
  unfold listInsert
  split
  · assumption
  · exact List.mem_append_right _ (List.mem_singleton.mpr rfl)

theorem mem_listInsert_of_mem {acc : List String} {y : String} (x : String)
    (h : y ∈ acc) : y ∈ listInsert acc x := by
  unfold listInsert
  split
  · exact h
  · exact List.mem_append_left _ h

theorem pySetList_subset (order xs : List String) :
    ∀ x ∈ pySetList order xs, x ∈ xs := by
  intro x hx
  unfold pySetList at hx
  exact of_decide_eq_true (List.mem_filter.mp hx).2

theorem lookup_assocSet (k : String) (v : TestData) :
    ∀ h : List (String × TestData), (assocSet k v h).lookup k = some v := by
  intro h
  induction h with
  | nil => simp [assocSet, List.lookup]
  | cons kv rest ih =>
    obtain ⟨k1, v1⟩ := kv
    by_cases hk : k = k1
    · simp [assocSet, hk, List.lookup]
    · have hb : (k == k1) = false := beq_eq_false_iff_ne.mpr hk
      simp [assocSet, hk, List.lookup, hb, ih]

theorem getLast?_drop_of_lt {α : Type} :
    ∀ (xs : List α) (k : Nat), k < xs.length → (xs.drop k).getLast? = xs.getLast? := by
  intro xs
  induction xs with
  | nil => intro k hk; simp at hk
  | cons a t ih =>
    intro k hk
    match k with
    | 0 => rfl
    | k' + 1 =>
      have hk' : k' < t.length := Nat.lt_of_succ_lt_succ hk
      have ht : t ≠ [] := by
        intro h
        rw [h] at hk'
        simp at hk'
      rw [List.drop_succ_cons, ih k' hk']
      match t, ht with
      | b :: l, _ => exact (List.getLast?_cons_cons).symm

theorem getLast?_lastN {α : Type} (n : Nat) (hn : 0 < n) (xs : List α) (hx : xs ≠ []) :
    (lastN n xs).getLast? = xs.getLast? := by
  unfold lastN
  by_cases hle : xs.length ≤ n
  · rw [Nat.sub_eq_zero_of_le hle, List.drop_zero]
  · have hlt : xs.length - n < xs.length :=
      Nat.sub_lt (List.length_pos.mpr hx) hn
    exact getLast?_drop_of_lt xs _ hlt

theorem updateTestMetrics_lookup (t : String) (time : Nat) (s : Bool)
    (hist : List (String × TestData)) :
    ∃ d, (updateTestMetrics t time s hist).lookup t = some d ∧
      d.success_rate.getLast? = some s := by
  unfold updateTestMetrics
  refine ⟨_, lookup_assocSet _ _ _, ?_⟩
  simp only
  split
  · rw [getLast?_lastN 20 (by norm_num) _ (by simp)]
    exact List.getLast?_concat _
  · exact List.getLast?_concat _

theorem runAttempts_false_last :
    ∀ os : List AttemptOutcome, os ≠ [] → runAttempts os = false →
      ∃ lastO, os.getLast? = some lastO ∧ isFailure lastO = true := by
  intro os
  induction os with
  | nil => intro h; exact absurd rfl h
  | cons o rest ih =>
    intro _ hfalse
    match rest, ih with
    | [], _ =>
      refine ⟨o, rfl, ?_⟩
      match o with
      | .completed rc =>
        simp [runAttempts] at hfalse
        simp [isFailure, bne_iff_ne, hfalse]
      | .timedOut => rfl
      | .crashed => rfl
    | o2 :: rest2, ih =>
      have hrec : runAttempts (o2 :: rest2) = false := by
        match o with
        | .completed rc =>
          simp only [runAttempts] at hfalse
          split at hfalse
          · exact absurd hfalse (by simp)
          · exact hfalse
        | .timedOut => exact hfalse
        | .crashed => exact hfalse
      obtain ⟨lastO, hl, hf⟩ := ih (by simp) hrec
      exact ⟨lastO, by rw [List.getLast?_cons_cons, hl], hf⟩

/-! ## Claim C5 -/

/-- **C5 — counterexample.**  The claim says no oracle failure mode lets an
exception escape the oracle boundary.  In `ai_test_selector_5.py` the
`requests.post` call is outside the `try` block, so a connection failure
raises past `ask_ollama_for_tests` (modelled as `Except.error`), aborting the
pipeline instead of degrading to an empty suggestion list. -/
theorem c5_counterexample : askOllamaSel5 HttpResult.connError = Except.error () := rfl

/-- **C5 — amended.**  In `ai_test_runner_3.py` every oracle failure mode —
timeout, connection failure, non-200 status, malformed response body — makes
`ask_ollama_for_tests` evaluate to the empty suggestion list without raising;
in `ai_test_selector_5.py` only a malformed response body degrades to the
empty list (a transport-level failure propagates, see the counterexample). -/
theorem c5_amended (r : HttpResult)
    (hfail : r = .timeout ∨ r = .connError ∨
      ∃ st ok body, r = .response st ok body ∧ (st ≠ 200 ∨ ok = false)) :
    askOllamaForTests r = [] ∧
    (∀ st body, askOllamaSel5 (.response st false body) = .ok []) := by
  constructor
  · rcases hfail with h | h | ⟨st, ok, body, h, hc⟩
    · rw [h]; rfl
    · rw [h]; rfl
    · subst h
      rcases hc with hst | hok
      · simp [askOllamaForTests, hst]
      · subst hok
        simp only [askOllamaForTests]
        split
        · rfl
        · rfl
  · intro st body
    rfl

/-- **C5 — witness** for the amended theorem, at the timeout failure mode. -/
theorem c5_witness :
    askOllamaForTests HttpResult.timeout = [] ∧
    (∀ st body, askOllamaSel5 (.response st false body) = .ok []) :=
  c5_amended HttpResult.timeout (Or.inl rfl)

/-! ## Claim C8 -/

/-- **C8.**  A test whose first attempt fails (nonzero exit, timeout, or
crash) and whose second attempt — the last within `RETRY_ATTEMPTS = 2` —
exits 0 settles as passed, and the history entry `update_test_metrics`
records for that run carries `success = True`; conversely, whenever the retry
loop reports failure, the final allowed attempt itself failed. -/
theorem c8_retry_success_recorded
    (o : AttemptOutcome) (ho : isFailure o = true) :
    runAttempts [o, .completed 0] = true ∧
    (∀ (t : String) (time : Nat) (hist : List (String × TestData)),
      ∃ d, (updateTestMetrics t time (runAttempts [o, .completed 0]) hist).lookup t = some d ∧
        d.success_rate.getLast? = some true) ∧
    (∀ os : List AttemptOutcome, os ≠ [] → runAttempts os = false →
      ∃ lastO, os.getLast? = some lastO ∧ isFailure lastO = true) := by
  have hrun : runAttempts [o, .completed 0] = true := by
    match o with
    | .completed rc =>
      simp only [runAttempts]
      split
      · rfl
      · rfl
    | .timedOut => rfl
    | .crashed => rfl
  refine ⟨hrun, ?_, runAttempts_false_last⟩
  intro t time hist
  rw [hrun]
  exact updateTestMetrics_lookup t time true hist

/-- **C8 — witness**: first attempt times out, second passes; the recorded
entry for that run has `success = True`. -/
theorem c8_witness :
    runAttempts [AttemptOutcome.timedOut, .completed 0] = true ∧
    (∃ d, (updateTestMetrics "tests/test_login.py" 7
        (runAttempts [AttemptOutcome.timedOut, .completed 0]) []).lookup
          "tests/test_login.py" = some d ∧
      d.success_rate.getLast? = some true) :=
  ⟨(c8_retry_success_recorded .timedOut rfl).1,
   (c8_retry_success_recorded .timedOut rfl).2.1 "tests/test_login.py" 7 []⟩

/-! ## Lemmas on the diff state machine (`get_changed_methods`) -/

theorem gcmAux_mono (mark : String → Bool) :
    ∀ (ls : List String) (cur : Option String) (acc : List String) (x : String),
      x ∈ acc → x ∈ gcmAux mark cur acc ls := by
  intro ls
  induction ls with
  | nil => intro cur acc x hx; simpa [gcmAux] using hx
  | cons l rest ih =>
    intro cur acc x hx
    simp only [gcmAux]
    cases hd : diffDefName l with
    | some m => exact ih _ _ _ hx
    | none =>
      refine ih _ _ _ ?_
      cases cur with
      | none => exact hx
      | some m =>
        by_cases hm : mark l = true
        · simp only [hm, if_true]
          exact mem_listInsert_of_mem _ hx
        · simp only [eq_false_of_ne_true hm, if_false]
          exact hx

theorem gcmAux_reach (mark : String → Bool) :
    ∀ (seg : List String) (acc : List String) (f : String) (markLine : String)
      (post : List String),
      (∀ l ∈ seg, diffDefName l = none ∧ isResetLine l = false) →
      diffDefName markLine = none → mark markLine = true →
      f ∈ gcmAux mark (some f) acc (seg ++ markLine :: post) := by
  intro seg
  induction seg with
  | nil =>
    intro acc f markLine post _ hdm hmark
    simp only [List.nil_append, gcmAux, hdm, hmark, if_true]
    exact gcmAux_mono mark post _ _ f (mem_listInsert_self acc f)
  | cons s seg ih =>
    intro acc f markLine post hseg hdm hmark
    obtain ⟨hd, hr⟩ := hseg s (List.mem_cons_self s seg)
    have hseg' : ∀ l ∈ seg, diffDefName l = none ∧ isResetLine l = false :=
      fun l hl => hseg l (List.mem_cons_of_mem s hl)
    simp only [List.cons_append, gcmAux, hd, hr, Bool.false_eq_true, if_false]
    exact ih _ f markLine post hseg' hdm hmark

theorem gcmAux_append_ex (mark : String → Bool) :
    ∀ (xs : List String) (cur : Option String) (acc : List String) (ys : List String),
      ∃ cur2 acc2, gcmAux mark cur acc (xs ++ ys) = gcmAux mark cur2 acc2 ys := by
  intro xs
  induction xs with
  | nil => intro cur acc ys; exact ⟨cur, acc, rfl⟩
  | cons l rest ih =>
    intro cur acc ys
    simp only [List.cons_append, gcmAux]
    cases diffDefName l with
    | some m => exact ih _ _ _
    | none => exact ih _ _ _

/-! ## Claim C6 -/

/-- The pre-change `pages/order.py`: `submit_order`'s body spans every
indented line after its `def` line. -/
def oldOrderFile : List String :=
  ["def submit_order(self):", "    a = 1", "    b = 2", "    c = 3",
   "    d = 4", "    e = 5", "    f = 6", "    return result"]

/-- The line the commit adds, strictly inside the body (after line 5, well
past the three context lines a unified diff shows before a change). -/
def insertedOrderLine : String := "    x = 99"

/-- The post-change file: the signature line is untouched. -/
def newOrderFile : List String :=
  oldOrderFile.take 5 ++ [insertedOrderLine] ++ oldOrderFile.drop 5

/-- The `git diff -U3` text of that change: headers, the hunk header (whose
function-context suffix `def submit_order(self):` git appends after the
second `@@`), and the hunk body whose context window starts three lines below
the `def` line. -/
def orderDiff : List String :=
  ["diff --git a/pages/order.py b/pages/order.py",
   "index 1111111..2222222 100644",
   "--- a/pages/order.py",
   "+++ b/pages/order.py",
   "@@ -3,6 +3,7 @@ def submit_order(self):",
   "     b = 2",
   "     c = 3",
   "     d = 4",
   "+    x = 99",
   "     e = 5",
   "     f = 6",
   "     return result"]

/-- The old-file side a unified-diff hunk body encodes: every non-`+` line's
payload (context and deletions). -/
def hunkOldLines (body : List String) : List String :=
  body.filterMap fun l => if pyStartsWith l "+" then none else some ⟨l.data.tail⟩

/-- The new-file side of a hunk body: every non-`-` line's payload. -/
def hunkNewLines (body : List String) : List String :=
  body.filterMap fun l => if pyStartsWith l "-" then none else some ⟨l.data.tail⟩

/-- **C6 — counterexample.**  The diff adds one line strictly inside the body
of `submit_order` (every line after the unchanged `def` header is indented,
and the insertion point is between body lines), the hunk faithfully encodes
exactly that edit (its old side is lines 3–8 of the old file, its new side
lines 3–9 of the new file, both files sharing the first two lines including
the signature); yet `get_changed_methods` extracts an empty delta set,
because the `def submit_order(` line lies above the three-line context window
and the hunk header starting with `@@` resets `current_method`. -/
theorem c6_counterexample :
    newOrderFile = oldOrderFile.take 5 ++ [insertedOrderLine] ++ oldOrderFile.drop 5 ∧
    srcDefName "def submit_order(self):" = some "submit_order" ∧
    oldOrderFile.head? = some "def submit_order(self):" ∧
    newOrderFile.head? = some "def submit_order(self):" ∧
    ((oldOrderFile.drop 1).all fun l => pyStartsWith l "    ") = true ∧
    pyStartsWith insertedOrderLine "    " = true ∧
    oldOrderFile = oldOrderFile.take 2 ++ hunkOldLines (orderDiff.drop 5) ∧
    newOrderFile = newOrderFile.take 2 ++ hunkNewLines (orderDiff.drop 5) ∧
    extractChangedMethodsR3 orderDiff = [] := by
  refine ⟨rfl, by decide, rfl, rfl, by decide, by decide, by decide, by decide, by decide⟩

/-- **C6 — amended.**  The body-change attribution holds only when the diff
text itself shows the function's `def` line: if the diff contains a line
matching the definition pattern capturing `f`, later a `+`/`-` line (not a
`+++`/`---` header), and between them no line matching the definition pattern
and no reset line (a non-empty line starting with none of space, `+`, `-`),
then `f` is in the extracted delta set.  When the changed body line's hunk
does not reach up to the `def` line, the function is silently missed (see the
counterexample). -/
theorem c6_amended (p1 p2 p3 : List String) (dl ml f : String)
    (hdl : diffDefName dl = some f)
    (hp2 : ∀ l ∈ p2, diffDefName l = none ∧ isResetLine l = false)
    (hml : diffDefName ml = none) (hmark : isMarkR3 ml = true) :
    f ∈ extractChangedMethodsR3 (p1 ++ dl :: (p2 ++ ml :: p3)) := by
  unfold extractChangedMethodsR3
  obtain ⟨cur2, acc2, heq⟩ := gcmAux_append_ex isMarkR3 p1 none [] (dl :: (p2 ++ ml :: p3))
  rw [heq]
  simp only [gcmAux, hdl]
  exact gcmAux_reach isMarkR3 p2 acc2 f ml p3 hp2 hml hmark

/-- **C6 — witness**: the standard near-`def` edit, where the context window
does include the signature line, is attributed. -/
theorem c6_witness :
    diffDefName " def submit_order(self):" = some "submit_order" ∧
    (["     a = 1"].all fun l => (diffDefName l).isNone && !isResetLine l) = true ∧
    diffDefName "+    x = 99" = none ∧ isMarkR3 "+    x = 99" = true ∧
    "submit_order" ∈ extractChangedMethodsR3
      (["--- a/pages/order.py", "+++ b/pages/order.py", "@@ -1,4 +1,5 @@"] ++
        " def submit_order(self):" :: (["     a = 1"] ++ "+    x = 99" :: ["     b = 2"])) :=
  ⟨by decide, by decide, by decide, by decide,
   c6_amended ["--- a/pages/order.py", "+++ b/pages/order.py", "@@ -1,4 +1,5 @@"]
     ["     a = 1"] ["     b = 2"] " def submit_order(self):" "+    x = 99"
     "submit_order" (by decide) (by decide) (by decide) (by decide)⟩

/-! ## Claim C7 -/

/-- A line with zero leading whitespace (and at least one character) — the
spec's end-of-block signal. -/
def isZeroIndent (l : String) : Bool :=
  match l.data with
  | [] => false
  | c :: _ => !pyIsSpace c

/-- The spec's notion of "the locator occurs inside the span of a method",
written from the spec's words (§4.2 definition-line heuristic with its rule-4
reset, as §4.3 prescribes for the usage indexer): a span opens at a `def`
line and closes at the next `def` line or at a line with zero leading
whitespace; the closing line itself lies outside every span.  This is the
second, spec-side definition against which the source's
`mapLocatorsToMethods` is compared. -/
def specInSpanAux (loc : String) (inSpan : Bool) : List String → Bool
  | [] => false
  | l :: rest =>
    match srcDefName l with
    | some _ => specInSpanAux loc true rest
    | none =>
      if isZeroIndent l then specInSpanAux loc false rest
      else (inSpan && containsSub l loc) || specInSpanAux loc inSpan rest

/-- Whether `loc` textually occurs inside the span of some method of the
file, in the spec's sense. -/
def specLocatorInMethodSpan (lines : List String) (loc : String) : Bool :=
  specInSpanAux loc false lines

/-- Whether some changed locator occurs on a non-`def` line that comes after
a `def` line — the condition under which the source's scanner (which never
resets `current_method`) attributes a method. -/
def locatorAfterDefAux (locs : List String) (sawDef : Bool) : List String → Bool
  | [] => false
  | l :: rest =>
    match srcDefName l with
    | some _ => locatorAfterDefAux locs true rest
    | none =>
      (sawDef && locs.any (fun loc => containsSub l loc)) || locatorAfterDefAux locs sawDef rest

/-- Top-level wrapper of `locatorAfterDefAux`. -/
def locatorOccursAfterDef (lines locs : List String) : Bool :=
  locatorAfterDefAux locs false lines

/-- The module-level file of the C7 counterexample: a function, then a
locator assigned at zero indentation — outside any method body. -/
def c7File : List String := ["def foo():", "    pass", "MY_LOCATOR = 1"]

/-- **C7 — counterexample.**  `MY_LOCATOR` occurs only on its own
zero-indent assignment line, which lies outside every method span (both in
Python terms and in the spec's §4.2 span heuristic), yet
`map_locators_to_methods` attributes `foo`: the scanner never resets
`current_method`, so the assignment line itself causes the attribution the
claim rules out. -/
theorem c7_counterexample :
    specLocatorInMethodSpan c7File "MY_LOCATOR" = false ∧
    ((c7File.filter fun l => !isZeroIndent l).all fun l => !containsSub l "MY_LOCATOR") = true ∧
    containsSub "MY_LOCATOR = 1" "MY_LOCATOR" = true ∧
    mapLocatorsToMethods c7File ["MY_LOCATOR"] = ["foo"] := by
  refine ⟨by decide, by decide, by decide, by decide⟩

theorem mlmAux_eq_acc (locs : List String) :
    ∀ (ls : List String) (sawDef : Bool) (cur : Option String) (acc : List String),
      locatorAfterDefAux locs sawDef ls = false →
      (cur.isSome = true → sawDef = true) →
      mlmAux locs cur acc ls = acc := by
  intro ls
  induction ls with
  | nil => intro sawDef cur acc _ _; rfl
  | cons l rest ih =>
    intro sawDef cur acc h hcur
    cases hd : srcDefName l with
    | some m =>
      simp only [locatorAfterDefAux, hd] at h
      simp only [mlmAux, hd]
      exact ih true (some m) acc h (fun _ => rfl)
    | none =>
      simp only [locatorAfterDefAux, hd, Bool.or_eq_false_iff] at h
      obtain ⟨h1, h2⟩ := h
      simp only [mlmAux, hd]
      cases cur with
      | none => exact ih sawDef none acc h2 (by simp)
      | some m =>
        have hsaw : sawDef = true := hcur rfl
        rw [hsaw, Bool.true_and] at h1
        rw [h1]
        simp only [Bool.false_eq_true, if_false]
        exact ih sawDef (some m) acc h2 (fun _ => hsaw)

/-- **C7 — amended.**  The usage expansion is empty provided no changed
locator occurs on any non-`def` line after a `def` line of the scanned file:
the source's method "span" runs from a `def` line to the next `def` line or
end of file with no dedent-based reset, so in particular a module-level
locator assignment placed after a method definition does attribute that
method (see the counterexample), while occurrences confined to lines before
the first `def` (the usual page-object layout) attribute nothing. -/
theorem c7_amended (lines locs : List String)
    (h : locatorOccursAfterDef lines locs = false) :
    mapLocatorsToMethods lines locs = [] :=
  mlmAux_eq_acc locs lines false none [] h (by simp)

/-- **C7 — witness**: locator assignments above the first method attribute
nothing. -/
theorem c7_witness :
    locatorOccursAfterDef ["X_LOCATOR = 1", "def foo():", "    y = 2"] ["X_LOCATOR"] = false ∧
    mapLocatorsToMethods ["X_LOCATOR = 1", "def foo():", "    y = 2"] ["X_LOCATOR"] = [] :=
  ⟨by decide, c7_amended ["X_LOCATOR = 1", "def foo():", "    y = 2"] ["X_LOCATOR"] (by decide)⟩

/-! ## Claim C9 -/

/-- A merged candidate set of 12 distinct test paths, against the cap of 8. -/
def c9Candidates : List String :=
  ["tests/test_c01.py", "tests/test_c02.py", "tests/test_c03.py", "tests/test_c04.py",
   "tests/test_c05.py", "tests/test_c06.py", "tests/test_c07.py", "tests/test_c08.py",
   "tests/test_c09.py", "tests/test_c10.py", "tests/test_c11.py", "tests/test_c12.py"]

/-- **C9 — counterexample.**  `list(set(tests_to_run))[:8]` enumerates the
set in the per-process, hash-seed-dependent order.  Two runs on the same
12-element candidate set, whose enumerations are two valid orders of the same
distinct elements, both keep exactly 8 entries — but different ones, so the
truncation is not deterministic across runs. -/
theorem c9_counterexample :
    List.Perm c9Candidates c9Candidates.dedup ∧
    List.Perm c9Candidates.reverse c9Candidates.dedup ∧
    c9Candidates.dedup.length = 12 ∧
    (dedupAndCap c9Candidates c9Candidates).length = 8 ∧
    (dedupAndCap c9Candidates.reverse c9Candidates).length = 8 ∧
    "tests/test_c01.py" ∈ dedupAndCap c9Candidates c9Candidates ∧
    "tests/test_c01.py" ∉ dedupAndCap c9Candidates.reverse c9Candidates := by
  refine ⟨by decide, by decide, by decide, by decide, by decide, by decide, by decide⟩

/-- **C9 — amended.**  Whatever enumeration order the process's hash seed
induces on the 12 distinct candidates, the final `SelectionResult` has
exactly 8 entries and is drawn from the candidate set; but which 8 survive
depends on that order (see the counterexample), so the truncation is
deterministic only for a fixed set-enumeration order, not across runs. -/
theorem c9_amended (cands order : List String)
    (hperm : List.Perm order cands.dedup) (hlen : cands.dedup.length = 12) :
    (dedupAndCap order cands).length = 8 ∧ ∀ x ∈ dedupAndCap order cands, x ∈ cands := by
  have hall : ∀ o ∈ order, decide (o ∈ cands) = true := fun o ho =>
    decide_eq_true (List.mem_dedup.mp (hperm.subset ho))
  have hfilter : pySetList order cands = order := List.filter_eq_self.mpr hall
  constructor
  · unfold dedupAndCap
    rw [hfilter, List.length_take, hperm.length_eq, hlen]
    rfl
  · intro x hx
    exact pySetList_subset order cands x (List.mem_of_mem_take hx)

/-- **C9 — witness** at the identity enumeration order. -/
theorem c9_witness :
    (dedupAndCap c9Candidates c9Candidates).length = 8 :=
  (c9_amended c9Candidates c9Candidates (by decide) (by decide)).1

/-! ## Claim C10 -/

/-- **C10.**  Both staged selectors run their three strategies mutually
exclusively: a non-empty direct match is executed with `direct` provenance,
exit 0 and no suggestion-oracle contact; otherwise a non-empty static match
is executed with `static-match` provenance and no suggestion-oracle contact;
the suggestion oracle is contacted exactly when both earlier stages are
empty, so the executed set always carries exactly one provenance.  The two
variants are stated separately, each over its own static-matching stage:
selector 5's step 2 uses the locator-expanded method set, selector 4's the
unexpanded one (its unconditional feature-mapping AI report never feeds the
executed set). -/
theorem c10_staged_exclusive (e : Env5) :
    (env5Direct e ≠ [] →
      sel5Run e = ⟨env5Direct e, some .direct, false, 0⟩) ∧
    (env5Direct e = [] → env5Matched e ≠ [] →
      sel5Run e = ⟨env5Matched e, some .staticMatch, false, 0⟩) ∧
    ((sel5Run e).oracleContacted = true ↔ env5Direct e = [] ∧ env5Matched e = []) ∧
    (env4Direct e ≠ [] →
      sel4Run e = ⟨env4Direct e, some .direct, false, true, 0⟩) ∧
    (env4Direct e = [] → env4Matched e ≠ [] →
      sel4Run e = ⟨env4Matched e, some .staticMatch, false, true, 0⟩) ∧
    ((sel4Run e).suggestionOracleContacted = true ↔
      env4Direct e = [] ∧ env4Matched e = []) := by
  refine ⟨?_, ?_, ?_, ?_, ?_, ?_⟩
  · intro h
    have hne : (env5Direct e).isEmpty = false := by
      cases hd : env5Direct e with
      | nil => exact absurd hd h
      | cons a t => rfl
    simp [sel5Run, hne]
  · intro hd hm
    have hde : (env5Direct e).isEmpty = true := by rw [hd]; rfl
    have hme : (env5Matched e).isEmpty = false := by
      cases hmm : env5Matched e with
      | nil => exact absurd hmm hm
      | cons a t => rfl
    simp [sel5Run, hde, hme]
  · constructor
    · intro h
      by_cases hd : env5Direct e = []
      · by_cases hm : env5Matched e = []
        · exact ⟨hd, hm⟩
        · have hde : (env5Direct e).isEmpty = true := by rw [hd]; rfl
          have hme : (env5Matched e).isEmpty = false := by
            cases hmm : env5Matched e with
            | nil => exact absurd hmm hm
            | cons a t => rfl
          simp [sel5Run, hde, hme] at h
      · have hne : (env5Direct e).isEmpty = false := by
          cases hdd : env5Direct e with
          | nil => exact absurd hdd hd
          | cons a t => rfl
        simp [sel5Run, hne] at h
    · rintro ⟨hd, hm⟩
      have hde : (env5Direct e).isEmpty = true := by rw [hd]; rfl
      have hme : (env5Matched e).isEmpty = true := by rw [hm]; rfl
      simp only [sel5Run, hde, Bool.not_true, Bool.false_eq_true, if_false, hme]
      cases horacle : askOllamaSel5 e.oracle with
      | error u => rfl
      | ok ai => rfl
  · intro h
    have hne : (env4Direct e).isEmpty = false := by
      cases hd : env4Direct e with
      | nil => exact absurd hd h
      | cons a t => rfl
    simp [sel4Run, hne]
  · intro hd hm
    have hde : (env4Direct e).isEmpty = true := by rw [hd]; rfl
    have hme : (env4Matched e).isEmpty = false := by
      cases hmm : env4Matched e with
      | nil => exact absurd hmm hm
      | cons a t => rfl
    simp [sel4Run, hde, hme]
  · constructor
    · intro h
      by_cases hd : env4Direct e = []
      · by_cases hm : env4Matched e = []
        · exact ⟨hd, hm⟩
        · have hde : (env4Direct e).isEmpty = true := by rw [hd]; rfl
          have hme : (env4Matched e).isEmpty = false := by
            cases hmm : env4Matched e with
            | nil => exact absurd hmm hm
            | cons a t => rfl
          simp [sel4Run, hde, hme] at h
      · have hne : (env4Direct e).isEmpty = false := by
          cases hdd : env4Direct e with
          | nil => exact absurd hdd hd
          | cons a t => rfl
        simp [sel4Run, hne] at h
    · rintro ⟨hd, hm⟩
      have hde : (env4Direct e).isEmpty = true := by rw [hd]; rfl
      have hme : (env4Matched e).isEmpty = true := by rw [hm]; rfl
      simp only [sel4Run, hde, Bool.not_true, Bool.false_eq_true, if_false, hme]
      cases horacle : askOllamaSel5 e.oracle with
      | error u => rfl
      | ok ai => rfl

/-- A run whose change set contains a corpus test, for instantiating the
staged-selector theorems. -/
def env5W : Env5 :=
  { changedFiles := ["tests/test_a.py"], diffs := [], files := [],
    repoTests := ["tests/test_a.py"], oracle := .connError, setOrder := [],
    closeMatch := fun _ _ => none }

/-- **C10 — witness**: a directly changed test file is executed with
`direct` provenance and no suggestion-oracle contact, in both staged
selectors. -/
theorem c10_witness :
    sel5Run env5W = ⟨["tests/test_a.py"], some .direct, false, 0⟩ ∧
    sel4Run env5W = ⟨["tests/test_a.py"], some .direct, false, true, 0⟩ :=
  ⟨(c10_staged_exclusive env5W).1 (by decide),
   (c10_staged_exclusive env5W).2.2.2.1 (by decide)⟩

/-! ## Claim C2 -/

/-- The stdlib fuzzy matcher instantiated to "no close match", for concrete
runs that never reach it. -/
def cmNone : String → List String → Option String := fun _ _ => none

/-- An `ai_test_runner_3.py` run with an empty change set, a one-test corpus
and a smoke test that fails both attempts. -/
def env3NoChanges : Env3 :=
  { changedFiles := [], diffs := [], files := [],
    repoTests := ["tests/test_a.py"], oracle := .connError, setOrder := [],
    attemptsOf := fun _ => [.timedOut, .timedOut] }

/-- An `ai_test_selector_5.py` run with an empty change set and a reachable
oracle that suggests nothing. -/
def env5NoChanges : Env5 :=
  { changedFiles := [], diffs := [], files := [],
    repoTests := ["tests/test_a.py"], oracle := .response 200 true "",
    setOrder := [], closeMatch := cmNone }

/-- **C2 — counterexample.**  With an empty change set,
`ai_test_runner_3.py` does not yield an empty selection: it runs the first
corpus test as a smoke test, and exits 1 when that test fails — and
`ai_test_selector_5.py`, whose steps 1 and 2 find nothing, does contact the
suggestion oracle. -/
theorem c2_counterexample :
    env3NoChanges.changedFiles = [] ∧
    (runner3Run cmNone env3NoChanges).selection = ["tests/test_a.py"] ∧
    (runner3Run cmNone env3NoChanges).exitCode = 1 ∧
    env5NoChanges.changedFiles = [] ∧
    (sel5Run env5NoChanges).oracleContacted = true := by
  refine ⟨rfl, by decide, by decide, rfl, by decide⟩

/-- **C2 — amended.**  The claimed behaviour holds for
`ai_test_runner_full.py`: an empty change set yields the empty selection,
exit status 0, and no oracle contact.  `ai_test_runner_3.py` instead runs the
first corpus test as a smoke test (its outcome sets the exit status, still
without contacting the oracle), and `ai_test_selector_5.py` exits 0 but does
contact the oracle, since its steps 1 and 2 are empty. -/
theorem c2_amended (e : EnvF) (h : e.changedFiles = []) :
    runnerFullRun e = ⟨[], 0, false, []⟩ := by
  unfold runnerFullRun
  rw [h]
  rfl

/-- **C2 — witness.** -/
theorem c2_witness :
    runnerFullRun
      { changedFiles := [], diffs := [], files := [],
        repoTests := ["tests/test_a.py"], oracle := .connError, setOrder := [] } =
      ⟨[], 0, false, []⟩ :=
  c2_amended _ rfl

/-! ## Claim C4 -/

/-- The diff of `pages/p.py` showing `def foo(` as context and one added
body line. -/
def pDiff : List String :=
  ["--- a/pages/p.py", "+++ b/pages/p.py", "@@ -1,3 +1,4 @@",
   " def foo(self):", "+    y = 2", "     return"]

/-- An `ai_test_runner_full.py` run whose static match is non-empty and tiny
(one test referencing the changed method). -/
def envFSmallStatic : EnvF :=
  { changedFiles := ["pages/p.py"],
    diffs := [("pages/p.py", pDiff)],
    files := [("pages/p.py", ["def foo(self):", "    y = 2", "    return"]),
              ("tests/test_b1.py", ["x.foo()"])],
    repoTests := ["tests/test_b1.py"],
    oracle := .connError,
    setOrder := ["tests/test_b1.py"] }

/-- **C4 — counterexample.**  `ai_test_runner_full.py` contacts the oracle
unconditionally: here static matching yields a non-empty one-element
candidate set — within any configured bound — and the oracle is contacted
anyway. -/
theorem c4_counterexample :
    (runnerFullRun envFSmallStatic).staticMatched = ["tests/test_b1.py"] ∧
    (runnerFullRun envFSmallStatic).staticMatched.length = 1 ∧
    (runnerFullRun envFSmallStatic).oracleContacted = true := by
  refine ⟨by decide, by decide, by decide⟩

/-- **C4 — amended.**  In `ai_test_runner_3.py` the oracle is invoked iff
the merged direct+static candidate list is empty or longer than 10, so a
non-empty set within the bound suppresses the request; in
`ai_test_runner_full.py` the oracle is contacted unconditionally whenever
the change set and the corpus are non-empty. -/
theorem c4_amended :
    (∀ (cm : String → List String → Option String) (e : Env3),
      e.changedFiles ≠ [] →
      ((runner3Run cm e).oracleContacted = true ↔
        (env3Direct e ++ env3Matched e = [] ∨
          10 < (env3Direct e ++ env3Matched e).length))) ∧
    (∀ e : EnvF, e.changedFiles ≠ [] → e.repoTests ≠ [] →
      (runnerFullRun e).oracleContacted = true) := by
  constructor
  · intro cm e h
    have hne : e.changedFiles.isEmpty = false := by
      cases hcf : e.changedFiles with
      | nil => exact absurd hcf h
      | cons a t => rfl
    have hoc : (runner3Run cm e).oracleContacted = env3OracleUsed e := by
      simp only [runner3Run, hne, Bool.false_eq_true, if_false]
      split <;> rfl
    rw [hoc]
    simp only [env3OracleUsed, env3Merged, Bool.or_eq_true, List.isEmpty_iff,
      decide_eq_true_eq]
  · intro e h1 h2
    have hne1 : e.changedFiles.isEmpty = false := by
      cases hcf : e.changedFiles with
      | nil => exact absurd hcf h1
      | cons a t => rfl
    have hne2 : e.repoTests.isEmpty = false := by
      cases hrt : e.repoTests with
      | nil => exact absurd hrt h2
      | cons a t => rfl
    simp only [runnerFullRun, hne1, hne2, Bool.false_eq_true, if_false]

/-- An `ai_test_runner_3.py` run whose step-1 match is a single changed test
file. -/
def env3Small : Env3 :=
  { changedFiles := ["tests/test_a.py"], diffs := [], files := [],
    repoTests := ["tests/test_a.py"], oracle := .connError,
    setOrder := ["tests/test_a.py"],
    attemptsOf := fun _ => [.completed 0, .completed 0] }

/-- **C4 — witness**: both halves instantiated — the small-static runner-3
run makes no request; the runner-full run does. -/
theorem c4_witness :
    ((runner3Run cmNone env3Small).oracleContacted = true ↔
      (env3Direct env3Small ++ env3Matched env3Small = [] ∨
        10 < (env3Direct env3Small ++ env3Matched env3Small).length)) ∧
    (runnerFullRun envFSmallStatic).oracleContacted = true :=
  ⟨c4_amended.1 cmNone env3Small (by decide),
   c4_amended.2 envFSmallStatic (by decide) (by decide)⟩

/-! ## Subset lemmas for the corpus-membership invariant -/

theorem findTestsUsingMethods_subset (repoTests : List String)
    (files : List (String × List String)) (methods : List String) :
    ∀ y ∈ findTestsUsingMethods repoTests files methods, y ∈ repoTests := by
  intro y hy
  exact List.filter_subset' repoTests hy

theorem mapAiFilesToRepoRaw_foldl_subset (cm : String → List String → Option String)
    (hcm : ∀ x cands r, cm x cands = some r → r ∈ cands) (repo : List String) :
    ∀ (aiFiles acc : List String), (∀ y ∈ acc, y ∈ repo) →
      ∀ y ∈ aiFiles.foldl (fun acc f =>
          if f ∈ repo then acc ++ [f]
          else
            match cm f repo with
            | some m => acc ++ [m]
            | none => acc) acc, y ∈ repo := by
  intro aiFiles
  induction aiFiles with
  | nil => intro acc hacc y hy; exact hacc y hy
  | cons f rest ih =>
    intro acc hacc y hy
    rw [List.foldl_cons] at hy
    refine ih _ ?_ y hy
    intro z hz
    by_cases hf : f ∈ repo
    · rw [if_pos hf] at hz
      rcases List.mem_append.mp hz with h | h
      · exact hacc z h
      · rw [List.mem_singleton.mp h]; exact hf
    · rw [if_neg hf] at hz
      cases hcmf : cm f repo with
      | some m =>
        rw [hcmf] at hz
        rcases List.mem_append.mp hz with h | h
        · exact hacc z h
        · rw [List.mem_singleton.mp h]; exact hcm f repo m hcmf
      | none => rw [hcmf] at hz; exact hacc z hz

theorem mapAiFilesToRepo_subset (cm : String → List String → Option String)
    (hcm : ∀ x cands r, cm x cands = some r → r ∈ cands)
    (order aiFiles repo : List String) :
    ∀ y ∈ mapAiFilesToRepo cm order aiFiles repo, y ∈ repo := by
  intro y hy
  have h1 : y ∈ mapAiFilesToRepoRaw cm aiFiles repo :=
    pySetList_subset order _ y hy
  exact mapAiFilesToRepoRaw_foldl_subset cm hcm repo aiFiles [] (by simp) y h1

theorem parseAiSelectedTests_subset (output : String) (repo : List String) :
    ∀ y ∈ parseAiSelectedTests output repo, y ∈ repo := by
  unfold parseAiSelectedTests
  have key : ∀ (ls : List String) (acc : List String), (∀ y ∈ acc, y ∈ repo) →
      ∀ y ∈ ls.foldl (fun acc l =>
          let line := pyStripBackticks (pyStrip l)
          if line ∈ repo then acc ++ [line] else acc) acc, y ∈ repo := by
    intro ls
    induction ls with
    | nil => intro acc hacc y hy; exact hacc y hy
    | cons l rest ih =>
      intro acc hacc y hy
      rw [List.foldl_cons] at hy
      refine ih _ ?_ y hy
      intro z hz
      simp only at hz
      by_cases hl : pyStripBackticks (pyStrip l) ∈ repo
      · rw [if_pos hl] at hz
        rcases List.mem_append.mp hz with h | h
        · exact hacc z h
        · rw [List.mem_singleton.mp h]; exact hl
      · rw [if_neg hl] at hz; exact hacc z hz
  exact key (pySplitlines output) [] (by simp)

theorem env3Direct_subset (e : Env3) : ∀ y ∈ env3Direct e, y ∈ e.repoTests := by
  intro y hy
  unfold env3Direct at hy
  exact of_decide_eq_true (List.mem_filter.mp hy).2

theorem env3Matched_subset (e : Env3) : ∀ y ∈ env3Matched e, y ∈ e.repoTests := by
  intro y hy
  unfold env3Matched at hy
  split at hy
  · simp at hy
  · exact findTestsUsingMethods_subset _ _ _ y hy

theorem env3Merged_subset (e : Env3) : ∀ y ∈ env3Merged e, y ∈ e.repoTests := by
  intro y hy
  rcases List.mem_append.mp hy with h | h
  · exact env3Direct_subset e y h
  · exact env3Matched_subset e y h

theorem env3AfterAi_subset (cm : String → List String → Option String)
    (hcm : ∀ x cands r, cm x cands = some r → r ∈ cands) (e : Env3) :
    ∀ y ∈ env3AfterAi cm e, y ∈ e.repoTests := by
  intro y hy
  unfold env3AfterAi at hy
  dsimp only at hy
  split at hy
  · split at hy
    · exact env3Merged_subset e y hy
    · split at hy
      · exact mapAiFilesToRepo_subset cm hcm _ _ _ y hy
      · rcases List.mem_append.mp hy with h | h
        · exact env3Merged_subset e y h
        · exact mapAiFilesToRepo_subset cm hcm _ _ _ y h
  · exact env3Merged_subset e y hy

/-! ## Claim C1 -/

/-- The test corpus of `ai_test_selector_2.py`'s step 3 in the
counterexample run. -/
def sel2Corpus : List String := ["tests/test_login.py", "tests/test_checkout.py"]

/-- The files that exist under the project root in that run — the corpus
plus ordinary source files such as the page object. -/
def sel2Existing : List String :=
  sel2Corpus ++ ["pages/Login_Page.py", "core/self_healing.py"]

/-- The corpus files with their contents (referencing none of the changed
names, so step 4 matches nothing and the AI fallback runs). -/
def sel2Tests : List (String × List String) :=
  [("tests/test_login.py", ["import pytest"]),
   ("tests/test_checkout.py", ["import pytest"])]

/-- **C1 — counterexample.**  In `ai_test_selector_2.py` the AI fallback
accepts any suggested line that ends in `.py` and resolves to an existing
file under the project root — corpus membership is never checked.  An oracle
line naming the existing non-test file `pages/Login_Page.py` therefore
reaches the executed selection even though it is not in the test corpus, and
it got there neither by exact corpus membership nor by fuzzy mapping. -/
theorem c1_counterexample :
    sel2KeywordMatch sel2Tests ["heal_element"] = [] ∧
    "pages/Login_Page.py" ∈ sel2Existing ∧
    "pages/Login_Page.py" ∈
      sel2Run sel2Tests ["heal_element"] sel2Existing
        (some "pages/Login_Page.py") sel2Existing ∧
    "pages/Login_Page.py" ∉ sel2Corpus := by
  refine ⟨by decide, by decide, by decide, by decide⟩

/-- **C1 — amended.**  The corpus-membership invariant holds for
`ai_test_runner_3.py`, `ai_test_runner_full.py` and the staged selectors:
every path in the final selection is a member of the enumerated corpus, and
an AI line enters only by exact membership or through the single best fuzzy
match drawn from the corpus.  It fails for `ai_test_selector_2.py`, whose AI
validation checks only that the line ends in `.py` and names an existing file
under the project root (see the counterexample). -/
theorem c1_amended :
    (∀ (cm : String → List String → Option String),
      (∀ x cands r, cm x cands = some r → r ∈ cands) →
      ∀ (e : Env3) (p : String), p ∈ (runner3Run cm e).selection → p ∈ e.repoTests) ∧
    (∀ (e : EnvF) (p : String), p ∈ (runnerFullRun e).selection → p ∈ e.repoTests) ∧
    (∀ e : Env5, (∀ x cands r, e.closeMatch x cands = some r → r ∈ cands) →
      ∀ p, p ∈ (sel5Run e).executed → p ∈ e.repoTests) := by
  refine ⟨?_, ?_, ?_⟩
  · intro cm hcm e p hp
    unfold runner3Run at hp
    split at hp
    · split at hp
      · simp at hp
      · rename_i t _ heq
        simp only at hp
        rw [List.mem_singleton.mp hp, heq]
        exact List.mem_cons_self t _
    · dsimp only at hp
      have hsel : p ∈ env3Selection cm e := by
        split at hp
        · exact hp
        · exact hp
      have h1 : p ∈ pySetList e.setOrder (env3AfterAi cm e) :=
        List.mem_of_mem_take hsel
      exact env3AfterAi_subset cm hcm e p (pySetList_subset _ _ p h1)
  · intro e p hp
    unfold runnerFullRun at hp
    split at hp
    · simp at hp
    · split at hp
      · simp at hp
      · dsimp only at hp
        have h1 := pySetList_subset e.setOrder _ p hp
        rcases List.mem_append.mp h1 with h | h
        · exact findTestsUsingMethods_subset _ _ _ p h
        · exact parseAiSelectedTests_subset _ _ p h
  · intro e hcm p hp
    unfold sel5Run at hp
    dsimp only at hp
    split at hp
    · have hp1 : p ∈ env5Direct e := hp
      unfold env5Direct at hp1
      exact of_decide_eq_true (List.mem_filter.mp hp1).2
    · split at hp
      · exact findTestsUsingMethods_subset _ _ _ p hp
      · split at hp
        · simp at hp
        · exact mapAiFilesToRepo_subset e.closeMatch hcm _ _ _ p hp

/-- **C1 — witness**: a concrete runner-3 run whose selection is non-empty;
the invariant places its element in the corpus. -/
theorem c1_witness :
    "tests/test_a.py" ∈ (runner3Run cmNone env3Small).selection ∧
    "tests/test_a.py" ∈ env3Small.repoTests :=
  ⟨by decide,
   c1_amended.1 cmNone (fun _ _ _ h => Option.noConfusion h) env3Small
     "tests/test_a.py" (by decide)⟩

/-! ## Claim C3 -/

/-- The corpus of the C3 counterexample: the directly changed test plus 11
tests that reference the changed method. -/
def c3RepoTests : List String :=
  ["tests/test_direct.py",
   "tests/test_b01.py", "tests/test_b02.py", "tests/test_b03.py",
   "tests/test_b04.py", "tests/test_b05.py", "tests/test_b06.py",
   "tests/test_b07.py", "tests/test_b08.py", "tests/test_b09.py",
   "tests/test_b10.py", "tests/test_b11.py"]

/-- On-disk contents: the changed page defines `foo`, the 11 `b`-tests call
it, the directly changed test references nothing. -/
def c3Files : List (String × List String) :=
  [("pages/p.py", ["def foo(self):", "    y = 2", "    return"]),
   ("tests/test_direct.py", ["import pytest"]),
   ("tests/test_b01.py", ["x.foo()"]), ("tests/test_b02.py", ["x.foo()"]),
   ("tests/test_b03.py", ["x.foo()"]), ("tests/test_b04.py", ["x.foo()"]),
   ("tests/test_b05.py", ["x.foo()"]), ("tests/test_b06.py", ["x.foo()"]),
   ("tests/test_b07.py", ["x.foo()"]), ("tests/test_b08.py", ["x.foo()"]),
   ("tests/test_b09.py", ["x.foo()"]), ("tests/test_b10.py", ["x.foo()"]),
   ("tests/test_b11.py", ["x.foo()"])]

/-- An `ai_test_runner_3.py` run that changes a test file and a page
method used by 11 tests, pushing the merged candidate list to 12 (> 10); the
oracle answers with a single existing test path. -/
def env3Large : Env3 :=
  { changedFiles := ["tests/test_direct.py", "pages/p.py"],
    diffs := [("pages/p.py", pDiff)],
    files := c3Files,
    repoTests := c3RepoTests,
    oracle := .response 200 true "tests/test_b01.py",
    setOrder := c3RepoTests,
    attemptsOf := fun _ => [.completed 0, .completed 0] }

/-- **C3 — counterexample.**  The changed file `tests/test_direct.py` is a
corpus member, yet the final `SelectionResult` does not contain it: the
merged step-1/2 candidate list has 12 entries, so step 3 *replaces* it with
the mapped AI selection, which drops the directly changed test. -/
theorem c3_counterexample :
    "tests/test_direct.py" ∈ env3Large.changedFiles ∧
    "tests/test_direct.py" ∈ env3Large.repoTests ∧
    (env3Merged env3Large).length = 12 ∧
    (runner3Run cmNone env3Large).selection = ["tests/test_b01.py"] ∧
    "tests/test_direct.py" ∉ (runner3Run cmNone env3Large).selection := by
  refine ⟨by decide, by decide, by decide, by decide, by decide⟩

/-- **C3 — amended.**  In the staged selectors a changed corpus test is
always in the executed set (step 1 short-circuits with exactly the direct
matches).  In `ai_test_runner_3.py` it is guaranteed only when the merged
step-1/2 candidate list stays within the AI-replacement threshold of 10
(otherwise the replacement may drop it — see the counterexample) and the
deduplicated final set fits within the cap of 8 under the process's set
enumeration. -/
theorem c3_amended :
    (∀ (cm : String → List String → Option String) (e : Env3) (p : String),
      p ∈ e.changedFiles → p ∈ e.repoTests →
      (env3Merged e).length ≤ 10 →
      p ∈ e.setOrder →
      (pySetList e.setOrder (env3AfterAi cm e)).length ≤ 8 →
      p ∈ (runner3Run cm e).selection) ∧
    (∀ (e : Env5) (p : String), p ∈ e.changedFiles → p ∈ e.repoTests →
      (sel5Run e).executed = env5Direct e ∧ p ∈ (sel5Run e).executed) := by
  constructor
  · intro cm e p hc hr hlen horder hcap
    have hdir : p ∈ env3Direct e := by
      unfold env3Direct
      exact List.mem_filter.mpr ⟨hc, decide_eq_true hr⟩
    have hmerged : p ∈ env3Merged e := List.mem_append_left _ hdir
    have hne : (env3Merged e).isEmpty = false := by
      cases hm : env3Merged e with
      | nil => rw [hm] at hmerged; simp at hmerged
      | cons a t => rfl
    have hcond : ((env3Merged e).isEmpty || decide (10 < (env3Merged e).length)) = false := by
      rw [hne, decide_eq_false (Nat.not_lt.mpr hlen)]
      rfl
    have hafter : env3AfterAi cm e = env3Merged e := by
      unfold env3AfterAi
      dsimp only
      rw [hcond]
      simp
    have hsel : p ∈ pySetList e.setOrder (env3AfterAi cm e) := by
      unfold pySetList
      refine List.mem_filter.mpr ⟨horder, ?_⟩
      rw [hafter]
      exact decide_eq_true hmerged
    have hfinal : p ∈ env3Selection cm e := by
      unfold env3Selection dedupAndCap
      rw [List.take_of_length_le hcap]
      exact hsel
    have hchne : e.changedFiles.isEmpty = false := by
      cases hcf : e.changedFiles with
      | nil => rw [hcf] at hc; simp at hc
      | cons a t => rfl
    simp only [runner3Run, hchne, Bool.false_eq_true, if_false]
    split
    · exact hfinal
    · exact hfinal
  · intro e p hc hr
    have hdir : p ∈ env5Direct e := by
      unfold env5Direct
      exact List.mem_filter.mpr ⟨hc, decide_eq_true hr⟩
    have hne : (env5Direct e).isEmpty = false := by
      cases hd : env5Direct e with
      | nil => rw [hd] at hdir; simp at hdir
      | cons a t => rfl
    constructor
    · simp [sel5Run, hne]
    · simp only [sel5Run, hne, Bool.not_false, if_true]
      exact hdir

/-- **C3 — witness**: a one-changed-test run where the direct match survives
to the final selection, and the staged selector executes it. -/
theorem c3_witness :
    "tests/test_a.py" ∈ (runner3Run cmNone env3Small).selection ∧
    ((sel5Run env5W).executed = env5Direct env5W ∧
      "tests/test_a.py" ∈ (sel5Run env5W).executed) :=
  ⟨c3_amended.1 cmNone env3Small "tests/test_a.py" (by decide) (by decide)
      (by decide) (by decide) (by decide),
   c3_amended.2 env5W "tests/test_a.py" (by decide) (by decide)⟩

end TestSelect










